import Mathlib

/-!
Verification of the record-store core of the `bidder25` bidding dashboard
(`src/state.py`).  Python floats are modelled by `ℚ`, timestamps by abstract
`Nat` ticks (the seed timestamps are the fixed tick `0`, taken once at process
start), and the ordered `TRACTS` dict by an association list that preserves
insertion order.  Logging and the lock are irrelevant to the functional
contracts and are not modelled; every operation here is the body of the
corresponding Python function under the lock.
-/

namespace Bidder

/-- A tract record, mirroring the per-tract dict in `state.py`. -/
structure Record where
  current_bid : ℚ
  max_budget : ℚ
  approved_over_budget : Bool
  requested_budget : Option ℚ
  requested_unit : Option String
  high_bidder : Bool
  last_updated : Nat
  deriving DecidableEq, Repr

/-- The store: tract name → record, in insertion order (Python dict). -/
abbrev Store := List (String × Record)

/-- First-match lookup, the model of `name in TRACTS` / `TRACTS[name]` reads
(keys are unique in every reachable store). -/
def lookupTract : Store → String → Option Record
  | [], _ => none
  | (n, r) :: rest, name => if n = name then some r else lookupTract rest name

/-- Apply `f` to the record stored under `tract`; a no-op when the name is
absent.  This is the model of `TRACTS[tract][field] = ...` assignment blocks
guarded by `if tract in TRACTS`. -/
def modifyTract : Store → String → (Record → Record) → Store
  | [], _, _ => []
  | (n, r) :: rest, tract, f =>
    if n = tract then (n, f r) :: modifyTract rest tract f
    else (n, r) :: modifyTract rest tract f

/-- Python dict assignment `TRACTS[name] = r`: overwrite in place when the key
exists (position preserved), append otherwise. -/
def dictSet (s : Store) (name : String) (r : Record) : Store :=
  if (lookupTract s name).isSome then modifyTract s name (fun _ => r)
  else s ++ [(name, r)]

/-- The seed `INITIAL_STATE` of `state.py`; the three `_now()` calls at import
time are the fixed tick `0`. -/
def INITIAL_STATE : Store :=
  [ ("Tract 1",
      { current_bid := 120000, max_budget := 150000, approved_over_budget := false,
        requested_budget := none, requested_unit := none, high_bidder := false,
        last_updated := 0 }),
    ("Tract 2",
      { current_bid := 210500, max_budget := 200000, approved_over_budget := false,
        requested_budget := none, requested_unit := none, high_bidder := false,
        last_updated := 0 }),
    ("Tract 3",
      { current_bid := 95250, max_budget := 110000, approved_over_budget := false,
        requested_budget := none, requested_unit := none, high_bidder := false,
        last_updated := 0 }) ]

/-- `update_bid` of `state.py`: set the bid, refresh the timestamp, clear the
transient flags; no-op when the tract is unknown. -/
def update_bid (tract : String) (amount : ℚ) (now : Nat) (s : Store) : Store :=
  modifyTract s tract fun r =>
    { r with current_bid := amount, last_updated := now,
             approved_over_budget := false, requested_budget := none,
             requested_unit := none, high_bidder := false }

/-- `approve_over_budget` of `state.py`: mark approved, optionally overwrite
`max_budget`, clear the pending request; no-op when the tract is unknown. -/
def approve_over_budget (tract : String) (new_budget : Option ℚ) (s : Store) : Store :=
  modifyTract s tract fun r =>
    { r with max_budget := new_budget.getD r.max_budget,
             approved_over_budget := true, requested_budget := none,
             requested_unit := none }

/-- `request_budget_increase` of `state.py`: record the pending request and
clear any approval; no-op when the tract is unknown. -/
def request_budget_increase (tract : String) (amount : ℚ) (unit : Option String)
    (s : Store) : Store :=
  modifyTract s tract fun r =>
    { r with requested_budget := some amount, requested_unit := unit,
             approved_over_budget := false }

/-- `set_high_bidder` of `state.py`: set the flag verbatim; no-op when the
tract is unknown. -/
def set_high_bidder (tract : String) (is_high : Bool) (s : Store) : Store :=
  modifyTract s tract fun r => { r with high_bidder := is_high }

/-- `reset_state` of `state.py`: `TRACTS[tract] = data.copy()` for each seed
entry, in seed order.  Names outside the seed are untouched. -/
def reset_state (s : Store) : Store :=
  INITIAL_STATE.foldl (fun acc p => dictSet acc p.1 p.2) s

/-- One cell of an admin-table row: absent from the dict, a value `float()`
accepts (with that parsed value), or a value `float()` rejects. -/
inductive Cell where
  | missing
  | valid (q : ℚ)
  | invalid
  deriving DecidableEq, Repr

/-- `float(row.get(key, default))`: a missing cell falls back to the stored
value (a number, which `float()` accepts), an invalid cell fails the parse. -/
def cellValue : Cell → ℚ → Option ℚ
  | .missing, d => some d
  | .valid q, _ => some q
  | .invalid, _ => none

/-- One edited admin-table row, the dict `{tract, current_bid, max_budget}`. -/
structure Row where
  tract : Option String
  current_bid : Cell
  max_budget : Cell
  deriving DecidableEq, Repr

/-- The per-row body of the loop in `apply_table_updates`. -/
def applyRow (now : Nat) (s : Store) (row : Row) : Store :=
  match row.tract with
  | none => s
  | some name =>
    if name = "" then s
    else
      match lookupTract s name with
      | none => s
      | some r =>
        match cellValue row.current_bid r.current_bid,
              cellValue row.max_budget r.max_budget with
        | some bid, some budget =>
          modifyTract s name fun t =>
            { t with current_bid := bid, max_budget := budget, last_updated := now,
                     approved_over_budget := false, requested_budget := none,
                     requested_unit := none, high_bidder := false }
        | _, _ => s

/-- `apply_table_updates` of `state.py`: fold the per-row update over the
edited rows; a failing row skips only itself. -/
def apply_table_updates (rows : List Row) (now : Nat) (s : Store) : Store :=
  rows.foldl (applyRow now) s

/-- Python `str.strip()`: drop leading and trailing whitespace. -/
def pyStrip (s : String) : String :=
  String.mk
    (((s.data.dropWhile Char.isWhitespace).reverse.dropWhile Char.isWhitespace).reverse)

/-- `add_tract` of `state.py`: trim the name, reject empty or duplicate names,
otherwise append a fresh record.  Returns (success, new store). -/
def add_tract (name : String) (current_bid max_budget : ℚ) (now : Nat)
    (s : Store) : Bool × Store :=
  let name := pyStrip name
  if name = "" then (false, s)
  else if (lookupTract s name).isSome then (false, s)
  else
    (true,
      s ++ [(name,
        { current_bid := current_bid, max_budget := max_budget,
          approved_over_budget := false, requested_budget := none,
          requested_unit := none, high_bidder := false, last_updated := now })])

/-- `datetime.isoformat()` on our tick model: an injective rendering. -/
def isoformat (t : Nat) : String := toString t

/-- A snapshot record: primitive values only, the timestamp rendered. -/
structure SnapRecord where
  current_bid : ℚ
  max_budget : ℚ
  approved_over_budget : Bool
  requested_budget : Option ℚ
  requested_unit : Option String
  high_bidder : Bool
  last_updated : String
  deriving DecidableEq, Repr

/-- `snapshot_state` of `state.py`: fully materialised copy of every record. -/
def snapshot_state (s : Store) : List (String × SnapRecord) :=
  s.map fun p =>
    (p.1,
      { current_bid := p.2.current_bid, max_budget := p.2.max_budget,
        approved_over_budget := p.2.approved_over_budget,
        requested_budget := p.2.requested_budget,
        requested_unit := p.2.requested_unit,
        high_bidder := p.2.high_bidder,
        last_updated := isoformat p.2.last_updated })

/-- Floor of a rational, written with `Int.fdiv` so it evaluates in the
kernel (`num.fdiv den` is flooring division; `den > 0`). -/
def ratFloor (x : ℚ) : ℤ := x.num.fdiv x.den

/-- Round to nearest with ties to even, Python `round(x, 1)`'s rule on the
rational model (banker's rounding), scaled to one decimal place. -/
def round1 (q : ℚ) : ℚ :=
  let x : ℚ := q * 10
  let f : ℤ := ratFloor x
  let frac : ℚ := x - f
  let n : ℤ :=
    if frac < 1/2 then f
    else if frac > 1/2 then f + 1
    else if f % 2 = 0 then f else f + 1
  (n : ℚ) / 10

/-- The two trailing clamp statements of `safe_pct_of_budget`. -/
def clamp_pct (q : ℚ) : ℚ :=
  if q < 0 then 0 else if q > 150 then 150 else q

/-- `safe_pct_of_budget` of `state.py`: 0 on absent or non-positive budget,
otherwise the rounded percentage clamped to `[0, 150]`. -/
def safe_pct_of_budget (current_bid : ℚ) (max_budget : Option ℚ) : ℚ :=
  match max_budget with
  | none => 0
  | some mb => if mb ≤ 0 then 0 else clamp_pct (round1 (current_bid / mb * 100))

/-- One inbound store operation, with the `_now()` tick it observes. -/
inductive Op where
  | updateBid (tract : String) (amount : ℚ) (now : Nat)
  | approveOverBudget (tract : String) (new_budget : Option ℚ)
  | requestBudgetIncrease (tract : String) (amount : ℚ) (unit : Option String)
  | setHighBidder (tract : String) (is_high : Bool)
  | reset
  | applyBulkUpdate (rows : List Row) (now : Nat)
  | addTract (name : String) (current_bid max_budget : ℚ) (now : Nat)
  deriving DecidableEq, Repr

/-- Dispatch one operation against the store. -/
def applyOp (s : Store) : Op → Store
  | .updateBid t a n => update_bid t a n s
  | .approveOverBudget t nb => approve_over_budget t nb s
  | .requestBudgetIncrease t a u => request_budget_increase t a u s
  | .setHighBidder t b => set_high_bidder t b s
  | .reset => reset_state s
  | .applyBulkUpdate rows n => apply_table_updates rows n s
  | .addTract nm cb mb n => (add_tract nm cb mb n s).2

/-- The store reached from the seed by a sequence of operations. -/
def run (ops : List Op) : Store :=
  ops.foldl applyOp INITIAL_STATE

/-- The bid a table cell would store is non-negative (vacuous for cells that
are missing or unparsable). -/
def Cell.nonneg : Cell → Prop
  | .valid q => 0 ≤ q
  | _ => True

instance : ∀ c : Cell, Decidable c.nonneg
  | .missing => .isTrue trivial
  | .valid q => inferInstanceAs (Decidable (0 ≤ q))
  | .invalid => .isTrue trivial

/-- Every bid amount an operation carries is non-negative. -/
def Op.amountsNonneg : Op → Prop
  | .updateBid _ a _ => 0 ≤ a
  | .addTract _ cb _ _ => 0 ≤ cb
  | .applyBulkUpdate rows _ => ∀ row ∈ rows, Cell.nonneg row.current_bid
  | _ => True

instance : ∀ op : Op, Decidable op.amountsNonneg
  | .updateBid _ a _ => inferInstanceAs (Decidable (0 ≤ a))
  | .approveOverBudget _ _ => .isTrue trivial
  | .requestBudgetIncrease _ _ _ => .isTrue trivial
  | .setHighBidder _ _ => .isTrue trivial
  | .reset => .isTrue trivial
  | .applyBulkUpdate rows _ =>
      inferInstanceAs (Decidable (∀ row ∈ rows, Cell.nonneg row.current_bid))
  | .addTract _ cb _ _ => inferInstanceAs (Decidable (0 ≤ cb))

/-- The unit tag is one of the known denominations or absent. -/
def unitOk (u : Option String) : Prop :=
  u = none ∨ u = some "1" ∨ u = some "K" ∨ u = some "MM"

instance (u : Option String) : Decidable (unitOk u) := by
  unfold unitOk
  infer_instance

/-- Every unit tag an operation carries is a known denomination or absent. -/
def Op.unitsValid : Op → Prop
  | .requestBudgetIncrease _ _ u => unitOk u
  | _ => True

instance : ∀ op : Op, Decidable op.unitsValid
  | .updateBid _ _ _ => .isTrue trivial
  | .approveOverBudget _ _ => .isTrue trivial
  | .requestBudgetIncrease _ _ u => inferInstanceAs (Decidable (unitOk u))
  | .setHighBidder _ _ => .isTrue trivial
  | .reset => .isTrue trivial
  | .applyBulkUpdate _ _ => .isTrue trivial
  | .addTract _ _ _ _ => .isTrue trivial

/-! ### Association-list lemmas -/

theorem lookup_modify_self (s : Store) (t : String) (f : Record → Record) :
    lookupTract (modifyTract s t f) t = (lookupTract s t).map f := by
  induction s with
  | nil => rfl
  | cons p rest ih =>
    obtain ⟨a, b⟩ := p
    by_cases h : a = t
    · subst h
      simp [modifyTract, lookupTract]
    · simp [modifyTract, lookupTract, h, ih]

theorem lookup_modify_other (s : Store) (t : String) (f : Record → Record)
    (n : String) (h : n ≠ t) :
    lookupTract (modifyTract s t f) n = lookupTract s n := by
  induction s with
  | nil => rfl
  | cons p rest ih =>
    obtain ⟨a, b⟩ := p
    by_cases ha : a = t
    · simp [modifyTract, lookupTract, ha, Ne.symm h, ih]
    · by_cases hn : a = n
      · subst hn
        simp [modifyTract, lookupTract, ha]
      · simp [modifyTract, lookupTract, ha, hn, ih]

theorem modify_absent (s : Store) (t : String) (f : Record → Record)
    (h : lookupTract s t = none) : modifyTract s t f = s := by
  induction s with
  | nil => rfl
  | cons p rest ih =>
    obtain ⟨a, b⟩ := p
    by_cases ha : a = t
    · simp [lookupTract, ha] at h
    · simp only [lookupTract, if_neg ha] at h
      simp [modifyTract, ha, ih h]

theorem lookup_append_self (s : Store) (n : String) (r : Record)
    (h : lookupTract s n = none) :
    lookupTract (s ++ [(n, r)]) n = some r := by
  induction s with
  | nil => simp [lookupTract]
  | cons p rest ih =>
    obtain ⟨a, b⟩ := p
    by_cases ha : a = n
    · simp [lookupTract, ha] at h
    · simp only [lookupTract, if_neg ha] at h
      simpa [lookupTract, ha] using ih h

theorem lookup_append_other (s : Store) (n m : String) (r : Record)
    (h : m ≠ n) : lookupTract (s ++ [(n, r)]) m = lookupTract s m := by
  induction s with
  | nil => simp [lookupTract, Ne.symm h]
  | cons p rest ih =>
    obtain ⟨a, b⟩ := p
    by_cases ha : a = m
    · simp [lookupTract, ha]
    · simpa [lookupTract, ha] using ih

theorem lookup_mem (s : Store) (n : String) (r : Record)
    (h : lookupTract s n = some r) : (n, r) ∈ s := by
  induction s with
  | nil => simp [lookupTract] at h
  | cons p rest ih =>
    obtain ⟨a, b⟩ := p
    by_cases ha : a = n
    · subst ha
      simp only [lookupTract, if_pos rfl] at h
      obtain rfl := Option.some_injective _ h.symm
      exact List.mem_cons_self _ _
    · simp only [lookupTract, if_neg ha] at h
      exact List.mem_cons_of_mem _ (ih h)

theorem lookup_dictSet_self (s : Store) (n : String) (r : Record) :
    lookupTract (dictSet s n r) n = some r := by
  unfold dictSet
  by_cases h : (lookupTract s n).isSome
  · rw [if_pos h, lookup_modify_self]
    obtain ⟨r₀, hr₀⟩ := Option.isSome_iff_exists.mp h
    rw [hr₀]
    rfl
  · rw [if_neg h]
    exact lookup_append_self s n r (Option.not_isSome_iff_eq_none.mp h)

theorem lookup_dictSet_other (s : Store) (n m : String) (r : Record)
    (h : m ≠ n) : lookupTract (dictSet s n r) m = lookupTract s m := by
  unfold dictSet
  by_cases hs : (lookupTract s n).isSome
  · rw [if_pos hs]
    exact lookup_modify_other s n _ m h
  · rw [if_neg hs]
    exact lookup_append_other s n m r h

theorem modify_preserves (P : Record → Prop) (s : Store) (t : String)
    (f : Record → Record) (hs : ∀ p ∈ s, P p.2) (hf : ∀ r, P r → P (f r)) :
    ∀ p ∈ modifyTract s t f, P p.2 := by
  induction s with
  | nil => intro p hp; simp [modifyTract] at hp
  | cons q rest ih =>
    obtain ⟨a, b⟩ := q
    intro p hp
    have hb : P b := hs (a, b) (List.mem_cons_self _ _)
    have hrest : ∀ p ∈ rest, P p.2 := fun p hp => hs p (List.mem_cons_of_mem _ hp)
    by_cases ha : a = t
    · rw [modifyTract, if_pos ha] at hp
      rcases List.mem_cons.mp hp with h | h
      · subst h; exact hf b hb
      · exact ih hrest p h
    · rw [modifyTract, if_neg ha] at hp
      rcases List.mem_cons.mp hp with h | h
      · subst h; exact hb
      · exact ih hrest p h

theorem append_preserves (P : Record → Prop) (s : Store) (n : String)
    (r : Record) (hs : ∀ p ∈ s, P p.2) (hr : P r) :
    ∀ p ∈ s ++ [(n, r)], P p.2 := by
  intro p hp
  rcases List.mem_append.mp hp with h | h
  · exact hs p h
  · rcases List.mem_singleton.mp h with rfl
    exact hr

theorem dictSet_preserves (P : Record → Prop) (s : Store) (n : String)
    (r : Record) (hs : ∀ p ∈ s, P p.2) (hr : P r) :
    ∀ p ∈ dictSet s n r, P p.2 := by
  unfold dictSet
  by_cases h : (lookupTract s n).isSome
  · rw [if_pos h]
    exact modify_preserves P s n _ hs fun _ _ => hr
  · rw [if_neg h]
    exact append_preserves P s n r hs hr

theorem foldl_dictSet_preserves (P : Record → Prop) (l : Store)
    (hl : ∀ p ∈ l, P p.2) (s : Store) (hs : ∀ p ∈ s, P p.2) :
    ∀ p ∈ l.foldl (fun acc q => dictSet acc q.1 q.2) s, P p.2 := by
  induction l generalizing s with
  | nil => exact hs
  | cons q rest ih =>
    have hq : P q.2 := hl q (List.mem_cons_self _ _)
    have hrest : ∀ p ∈ rest, P p.2 := fun p hp => hl p (List.mem_cons_of_mem _ hp)
    exact ih hrest _ (dictSet_preserves P s q.1 q.2 hs hq)

theorem modify_frame {α : Type} (g : Record → α) (s : Store) (t : String)
    (f : Record → Record) (hf : ∀ r, g (f r) = g r) (name : String) :
    (lookupTract (modifyTract s t f) name).map g = (lookupTract s name).map g := by
  by_cases h : name = t
  · subst h
    rw [lookup_modify_self]
    cases lookupTract s name <;> simp [hf]
  · rw [lookup_modify_other s t f name h]

theorem clamp_pct_bounds (q : ℚ) : 0 ≤ clamp_pct q ∧ clamp_pct q ≤ 150 := by
  unfold clamp_pct
  split_ifs with h1 h2 <;> constructor <;> linarith

/-! ### Claim theorems -/

/-- C1: for a tract present in the store, `update_bid(name, X)` sets
`current_bid = X`, refreshes `last_updated` to the current tick, clears
`approved_over_budget`, `requested_budget`, `requested_unit`, `high_bidder`
(leaving `max_budget` as it was), and leaves every other record unchanged. -/
theorem update_bid_spec (s : Store) (name : String) (X : ℚ) (now : Nat)
    (r : Record) (h : lookupTract s name = some r) :
    lookupTract (update_bid name X now s) name =
      some { current_bid := X, max_budget := r.max_budget,
             approved_over_budget := false, requested_budget := none,
             requested_unit := none, high_bidder := false, last_updated := now } ∧
    ∀ n, n ≠ name → lookupTract (update_bid name X now s) n = lookupTract s n := by
  constructor
  · rw [update_bid, lookup_modify_self, h]
    rfl
  · intro n hn
    exact lookup_modify_other s name _ n hn

/-- C1 witness: updating "Tract 1" in the seed gives the cleared record and
leaves "Tract 2" untouched. -/
theorem update_bid_spec_witness :
    lookupTract (update_bid "Tract 1" 777 5 INITIAL_STATE) "Tract 1" =
      some { current_bid := 777, max_budget := 150000, approved_over_budget := false,
             requested_budget := none, requested_unit := none, high_bidder := false,
             last_updated := 5 } ∧
    lookupTract (update_bid "Tract 1" 777 5 INITIAL_STATE) "Tract 2" =
      lookupTract INITIAL_STATE "Tract 2" := by
  have h := update_bid_spec INITIAL_STATE "Tract 1" 777 5
    { current_bid := 120000, max_budget := 150000, approved_over_budget := false,
      requested_budget := none, requested_unit := none, high_bidder := false,
      last_updated := 0 } (by decide)
  exact ⟨h.1, h.2 "Tract 2" (by decide)⟩

/-- C2: the percent-of-budget helper returns 0 on an absent or non-positive
budget, otherwise the percentage rounded to one decimal and clamped to
`[0, 150]`; its result always lies in `[0, 150]`, and the three cited
evaluations hold. -/
theorem safe_pct_of_budget_spec :
    (∀ cb : ℚ, safe_pct_of_budget cb none = 0) ∧
    (∀ cb mb : ℚ, mb ≤ 0 → safe_pct_of_budget cb (some mb) = 0) ∧
    (∀ cb mb : ℚ, 0 < mb →
      safe_pct_of_budget cb (some mb) = clamp_pct (round1 (cb / mb * 100))) ∧
    (∀ (cb : ℚ) (mb : Option ℚ),
      0 ≤ safe_pct_of_budget cb mb ∧ safe_pct_of_budget cb mb ≤ 150) ∧
    safe_pct_of_budget 300 (some 100) = 150 ∧
    safe_pct_of_budget 50 (some 0) = 0 ∧
    safe_pct_of_budget 50 none = 0 := by
  refine ⟨fun cb => rfl, ?_, ?_, ?_, ?_, ?_, rfl⟩
  · intro cb mb h
    simp [safe_pct_of_budget, h]
  · intro cb mb h
    simp [safe_pct_of_budget, not_le.mpr h]
  · intro cb mb
    match mb with
    | none => simp [safe_pct_of_budget]
    | some b =>
      by_cases h : b ≤ 0
      · simp [safe_pct_of_budget, h]
      · simpa [safe_pct_of_budget, h] using clamp_pct_bounds (round1 (cb / b * 100))
  · norm_num [safe_pct_of_budget, round1, ratFloor, clamp_pct]
  · norm_num [safe_pct_of_budget]

/-- C2 witness: the non-positive-budget branch applied at a concrete input. -/
theorem safe_pct_of_budget_spec_witness :
    safe_pct_of_budget 7 (some (-3)) = 0 :=
  safe_pct_of_budget_spec.2.1 7 (-3) (by norm_num)

/-- C3: `reset()` restores every seed-named record to its seed value (seed
timestamps fixed at process start) and leaves records whose names are not in
the seed exactly as they were. -/
theorem reset_state_spec (s : Store) (n : String) :
    ((lookupTract INITIAL_STATE n).isSome →
      lookupTract (reset_state s) n = lookupTract INITIAL_STATE n) ∧
    (lookupTract INITIAL_STATE n = none →
      lookupTract (reset_state s) n = lookupTract s n) := by
  have hr : reset_state s =
      dictSet (dictSet (dictSet s "Tract 1"
          ⟨120000, 150000, false, none, none, false, 0⟩)
        "Tract 2" ⟨210500, 200000, false, none, none, false, 0⟩)
        "Tract 3" ⟨95250, 110000, false, none, none, false, 0⟩ := rfl
  by_cases h1 : n = "Tract 1"
  · subst h1
    refine ⟨fun _ => ?_, fun hnone => absurd hnone (by decide)⟩
    rw [hr, lookup_dictSet_other _ _ _ _ (by decide),
        lookup_dictSet_other _ _ _ _ (by decide), lookup_dictSet_self]
    rfl
  · by_cases h2 : n = "Tract 2"
    · subst h2
      refine ⟨fun _ => ?_, fun hnone => absurd hnone (by decide)⟩
      rw [hr, lookup_dictSet_other _ _ _ _ (by decide), lookup_dictSet_self]
      rfl
    · by_cases h3 : n = "Tract 3"
      · subst h3
        refine ⟨fun _ => ?_, fun hnone => absurd hnone (by decide)⟩
        rw [hr, lookup_dictSet_self]
        rfl
      · have hnone : lookupTract INITIAL_STATE n = none := by
          simp [INITIAL_STATE, lookupTract, Ne.symm h1, Ne.symm h2, Ne.symm h3]
        refine ⟨fun hs => ?_, fun _ => ?_⟩
        · rw [hnone] at hs
          simp at hs
        · rw [hr, lookup_dictSet_other _ _ _ _ h3, lookup_dictSet_other _ _ _ _ h2,
              lookup_dictSet_other _ _ _ _ h1]

/-- C3 witness: after adding "Tract 4" and resetting, "Tract 4" keeps bid 10
and budget 20 while "Tract 1" returns to its seed value. -/
theorem reset_state_spec_witness :
    lookupTract (reset_state (add_tract "Tract 4" 10 20 7 INITIAL_STATE).2) "Tract 4" =
      some ⟨10, 20, false, none, none, false, 7⟩ ∧
    lookupTract (reset_state (add_tract "Tract 4" 10 20 7 INITIAL_STATE).2) "Tract 1" =
      lookupTract INITIAL_STATE "Tract 1" := by
  constructor
  · have h := (reset_state_spec (add_tract "Tract 4" 10 20 7 INITIAL_STATE).2
      "Tract 4").2 (by decide)
    rw [h]
    decide
  · exact (reset_state_spec (add_tract "Tract 4" 10 20 7 INITIAL_STATE).2
      "Tract 1").1 (by decide)

/-- C4: calling `update_bid`, `approve_over_budget`, `request_budget_increase`
or `set_high_bidder` with a name absent from the store changes nothing: the
store, and hence its snapshot, are identical before and after. -/
theorem unknown_tract_noop (s : Store) (name : String)
    (h : lookupTract s name = none) (X : ℚ) (nb : Option ℚ) (u : Option String)
    (b : Bool) (now : Nat) :
    update_bid name X now s = s ∧
    approve_over_budget name nb s = s ∧
    request_budget_increase name X u s = s ∧
    set_high_bidder name b s = s ∧
    snapshot_state (update_bid name X now s) = snapshot_state s ∧
    snapshot_state (approve_over_budget name nb s) = snapshot_state s ∧
    snapshot_state (request_budget_increase name X u s) = snapshot_state s ∧
    snapshot_state (set_high_bidder name b s) = snapshot_state s := by
  have h1 : update_bid name X now s = s := by
    rw [update_bid, modify_absent _ _ _ h]
  have h2 : approve_over_budget name nb s = s := by
    rw [approve_over_budget, modify_absent _ _ _ h]
  have h3 : request_budget_increase name X u s = s := by
    rw [request_budget_increase, modify_absent _ _ _ h]
  have h4 : set_high_bidder name b s = s := by
    rw [set_high_bidder, modify_absent _ _ _ h]
  exact ⟨h1, h2, h3, h4, congrArg _ h1, congrArg _ h2, congrArg _ h3, congrArg _ h4⟩

/-- C4 witness: mutating the unknown "Tract 9" leaves the seed snapshot
unchanged. -/
theorem unknown_tract_noop_witness :
    snapshot_state (update_bid "Tract 9" 1 2 INITIAL_STATE) =
      snapshot_state INITIAL_STATE :=
  (unknown_tract_noop INITIAL_STATE "Tract 9" (by decide) 1 none none true 2).2.2.2.2.1

/-- C5: `add_tract` trims the name; it returns false and mutates nothing when
the trimmed name is empty or already a key, and otherwise returns true and
appends a fresh record with the given bid and budget, cleared flags and
`last_updated = now`, leaving all other records unchanged. -/
theorem add_tract_spec (name : String) (cb mb : ℚ) (now : Nat) (s : Store) :
    (pyStrip name = "" → add_tract name cb mb now s = (false, s)) ∧
    ((lookupTract s (pyStrip name)).isSome → add_tract name cb mb now s = (false, s)) ∧
    (pyStrip name ≠ "" → lookupTract s (pyStrip name) = none →
      (add_tract name cb mb now s).1 = true ∧
      lookupTract (add_tract name cb mb now s).2 (pyStrip name) =
        some ⟨cb, mb, false, none, none, false, now⟩ ∧
      ∀ n, n ≠ pyStrip name →
        lookupTract (add_tract name cb mb now s).2 n = lookupTract s n) := by
  refine ⟨fun h => ?_, fun h => ?_, fun h1 h2 => ?_⟩
  · simp [add_tract, h]
  · by_cases he : pyStrip name = "" <;> simp [add_tract, he, h]
  · have hl : ¬(lookupTract s (pyStrip name)).isSome := by
      rw [h2]
      simp
    refine ⟨?_, ?_, ?_⟩
    · simp [add_tract, h1, hl]
    · have hred : (add_tract name cb mb now s).2 =
          s ++ [(pyStrip name, ⟨cb, mb, false, none, none, false, now⟩)] := by
        simp [add_tract, h1, hl]
      rw [hred]
      exact lookup_append_self s _ _ h2
    · intro n hn
      have hred : (add_tract name cb mb now s).2 =
          s ++ [(pyStrip name, ⟨cb, mb, false, none, none, false, now⟩)] := by
        simp [add_tract, h1, hl]
      rw [hred]
      exact lookup_append_other s _ _ _ hn

/-- C5 witness: duplicate and blank names are rejected; a fresh name is
inserted with the given fields. -/
theorem add_tract_spec_witness :
    add_tract "  " 1 2 7 INITIAL_STATE = (false, INITIAL_STATE) ∧
    add_tract "Tract 1" 1 2 7 INITIAL_STATE = (false, INITIAL_STATE) ∧
    lookupTract (add_tract "Tract 4" 10 20 7 INITIAL_STATE).2 "Tract 4" =
      some ⟨10, 20, false, none, none, false, 7⟩ :=
  ⟨(add_tract_spec "  " 1 2 7 INITIAL_STATE).1 (by decide),
   (add_tract_spec "Tract 1" 1 2 7 INITIAL_STATE).2.1 (by decide),
   ((add_tract_spec "Tract 4" 10 20 7 INITIAL_STATE).2.2 (by decide) (by decide)).2.1⟩

/-- C6: the bulk update processes rows one after another (a skipped row never
aborts its successors); a row with no or unknown tract name is skipped, a row
with an unparsable number leaves its record entirely unchanged, and a row that
parses overwrites the two numeric fields, refreshes `last_updated` and clears
the transient flags, leaving all other records unchanged. -/
theorem apply_table_updates_spec (now : Nat) (s : Store) (row : Row)
    (rest : List Row) :
    (apply_table_updates (row :: rest) now s =
      apply_table_updates rest now (applyRow now s row)) ∧
    (row.tract = none → applyRow now s row = s) ∧
    (∀ name, row.tract = some name → lookupTract s name = none →
      applyRow now s row = s) ∧
    (∀ name r, row.tract = some name → lookupTract s name = some r →
      (cellValue row.current_bid r.current_bid = none ∨
        cellValue row.max_budget r.max_budget = none) →
      applyRow now s row = s) ∧
    (∀ name r bid budget, row.tract = some name → name ≠ "" →
      lookupTract s name = some r →
      cellValue row.current_bid r.current_bid = some bid →
      cellValue row.max_budget r.max_budget = some budget →
      lookupTract (applyRow now s row) name =
        some ⟨bid, budget, false, none, none, false, now⟩ ∧
      ∀ n, n ≠ name → lookupTract (applyRow now s row) n = lookupTract s n) := by
  refine ⟨rfl, fun h => ?_, ?_, ?_, ?_⟩
  · simp [applyRow, h]
  · intro name h hn
    by_cases he : name = ""
    · simp [applyRow, h, he]
    · simp [applyRow, h, he, hn]
  · intro name r h hr hcell
    by_cases he : name = ""
    · simp [applyRow, h, he]
    · rcases hcell with hc | hc
      · simp [applyRow, h, he, hr, hc]
      · cases hb : cellValue row.current_bid r.current_bid <;>
          simp [applyRow, h, he, hr, hb, hc]
  · intro name r bid budget h he hr hb hbud
    have hred : applyRow now s row = modifyTract s name fun t =>
        { t with current_bid := bid, max_budget := budget, last_updated := now,
                 approved_over_budget := false, requested_budget := none,
                 requested_unit := none, high_bidder := false } := by
      simp [applyRow, h, he, hr, hb, hbud]
    rw [hred]
    constructor
    · rw [lookup_modify_self, hr]
      rfl
    · intro n hn
      exact lookup_modify_other s name _ n hn

/-- C6 witness: the spec's example — a batch whose first row has the
unparsable bid "abc" leaves "Tract 1" untouched while the second row updates
"Tract 2". -/
theorem apply_table_updates_spec_witness :
    applyRow 9 INITIAL_STATE
        { tract := some "Tract 1", current_bid := Cell.invalid,
          max_budget := Cell.valid 200 } = INITIAL_STATE ∧
    lookupTract
        (applyRow 9 INITIAL_STATE
          { tract := some "Tract 2", current_bid := Cell.valid 100,
            max_budget := Cell.valid 200 }) "Tract 2" =
      some ⟨100, 200, false, none, none, false, 9⟩ := by
  constructor
  · exact (apply_table_updates_spec 9 INITIAL_STATE
      { tract := some "Tract 1", current_bid := Cell.invalid,
        max_budget := Cell.valid 200 } []).2.2.2.1 "Tract 1"
      ⟨120000, 150000, false, none, none, false, 0⟩ rfl (by decide)
      (Or.inl rfl)
  · exact ((apply_table_updates_spec 9 INITIAL_STATE
      { tract := some "Tract 2", current_bid := Cell.valid 100,
        max_budget := Cell.valid 200 } []).2.2.2.2 "Tract 2"
      ⟨210500, 200000, false, none, none, false, 0⟩ 100 200 rfl (by decide)
      (by decide) rfl rfl).1

/-- C7: for a present tract, `approve_over_budget(name, new_budget)` sets
`approved_over_budget = true` and clears the pending request; it overwrites
`max_budget` exactly when `new_budget` is not null, and the cited
request-then-approve chain on "Tract 2" yields the stated record. -/
theorem approve_over_budget_spec (s : Store) (name : String) (r : Record)
    (h : lookupTract s name = some r) (nb : Option ℚ) :
    lookupTract (approve_over_budget name nb s) name =
      some { r with max_budget := nb.getD r.max_budget,
                    approved_over_budget := true,
                    requested_budget := none, requested_unit := none } ∧
    (∀ b, nb = some b →
      lookupTract (approve_over_budget name nb s) name =
        some { r with max_budget := b, approved_over_budget := true,
                      requested_budget := none, requested_unit := none }) ∧
    (nb = none →
      lookupTract (approve_over_budget name nb s) name =
        some { r with approved_over_budget := true,
                      requested_budget := none, requested_unit := none }) ∧
    (∀ n, n ≠ name →
      lookupTract (approve_over_budget name nb s) n = lookupTract s n) ∧
    lookupTract
        (approve_over_budget "Tract 2" (some 6000000)
          (request_budget_increase "Tract 2" 5000 (some "K") INITIAL_STATE))
        "Tract 2" =
      some ⟨210500, 6000000, true, none, none, false, 0⟩ := by
  refine ⟨?_, ?_, ?_, ?_, by decide⟩
  · rw [approve_over_budget, lookup_modify_self, h]
    rfl
  · intro b hb
    subst hb
    rw [approve_over_budget, lookup_modify_self, h]
    rfl
  · intro hb
    subst hb
    rw [approve_over_budget, lookup_modify_self, h]
    rfl
  · intro n hn
    exact lookup_modify_other s name _ n hn

/-- C7 witness: approving "Tract 2" with a new budget of 6000000 on the seed
overwrites `max_budget` and clears the request fields. -/
theorem approve_over_budget_spec_witness :
    lookupTract (approve_over_budget "Tract 2" (some 6000000) INITIAL_STATE)
        "Tract 2" =
      some ⟨210500, 6000000, true, none, none, false, 0⟩ :=
  (approve_over_budget_spec INITIAL_STATE "Tract 2"
    ⟨210500, 200000, false, none, none, false, 0⟩ (by decide) (some 6000000)).2.1
    6000000 rfl

/-- C8: `approve_over_budget`, `request_budget_increase` and
`set_high_bidder` never change any record's `last_updated` or `current_bid`,
while `update_bid` and a successfully applied bulk-update row stamp the target
record's `last_updated` with the current tick. -/
theorem last_updated_frame (s : Store) (name : String) :
    (∀ t nb, (lookupTract (approve_over_budget t nb s) name).map
        (fun r => (r.last_updated, r.current_bid)) =
      (lookupTract s name).map (fun r => (r.last_updated, r.current_bid))) ∧
    (∀ t a u, (lookupTract (request_budget_increase t a u s) name).map
        (fun r => (r.last_updated, r.current_bid)) =
      (lookupTract s name).map (fun r => (r.last_updated, r.current_bid))) ∧
    (∀ t b, (lookupTract (set_high_bidder t b s) name).map
        (fun r => (r.last_updated, r.current_bid)) =
      (lookupTract s name).map (fun r => (r.last_updated, r.current_bid))) ∧
    (∀ X now r, lookupTract s name = some r →
      (lookupTract (update_bid name X now s) name).map Record.last_updated =
        some now) ∧
    (∀ now row r bid budget, row.tract = some name → name ≠ "" →
      lookupTract s name = some r →
      cellValue row.current_bid r.current_bid = some bid →
      cellValue row.max_budget r.max_budget = some budget →
      (lookupTract (applyRow now s row) name).map Record.last_updated =
        some now) := by
  refine ⟨?_, ?_, ?_, ?_, ?_⟩
  · intro t nb
    rw [approve_over_budget]
    apply modify_frame
    intro r
    rfl
  · intro t a u
    rw [request_budget_increase]
    apply modify_frame
    intro r
    rfl
  · intro t b
    rw [set_high_bidder]
    apply modify_frame
    intro r
    rfl
  · intro X now r h
    rw [update_bid, lookup_modify_self, h]
    rfl
  · intro now row r bid budget h he hr hb hbud
    have hred : applyRow now s row = modifyTract s name fun t =>
        { t with current_bid := bid, max_budget := budget, last_updated := now,
                 approved_over_budget := false, requested_budget := none,
                 requested_unit := none, high_bidder := false } := by
      simp [applyRow, h, he, hr, hb, hbud]
    rw [hred, lookup_modify_self, hr]
    rfl

/-- C8 witness: on the seed, a bid update stamps "Tract 1" with the new tick,
and an approval leaves its timestamp and bid untouched. -/
theorem last_updated_frame_witness :
    (lookupTract (update_bid "Tract 1" 1 3 INITIAL_STATE) "Tract 1").map
        Record.last_updated = some 3 ∧
    (lookupTract (approve_over_budget "Tract 1" (some 9) INITIAL_STATE)
        "Tract 1").map (fun r => (r.last_updated, r.current_bid)) =
      (lookupTract INITIAL_STATE "Tract 1").map
        (fun r => (r.last_updated, r.current_bid)) :=
  ⟨(last_updated_frame INITIAL_STATE "Tract 1").2.2.2.1 1 3
      ⟨120000, 150000, false, none, none, false, 0⟩ (by decide),
   (last_updated_frame INITIAL_STATE "Tract 1").1 "Tract 1" (some 9)⟩

/-! ### Reachability invariants -/

theorem applyRow_bids_nonneg (now : Nat) (s : Store) (row : Row)
    (hs : ∀ p ∈ s, 0 ≤ p.2.current_bid) (hrow : Cell.nonneg row.current_bid) :
    ∀ p ∈ applyRow now s row, 0 ≤ p.2.current_bid := by
  cases htr : row.tract with
  | none => simpa [applyRow, htr] using hs
  | some name =>
    by_cases he : name = ""
    · simpa [applyRow, htr, he] using hs
    · cases hr : lookupTract s name with
      | none => simpa [applyRow, htr, he, hr] using hs
      | some r =>
        cases hb : cellValue row.current_bid r.current_bid with
        | none => simpa [applyRow, htr, he, hr, hb] using hs
        | some bid =>
          cases hbud : cellValue row.max_budget r.max_budget with
          | none => simpa [applyRow, htr, he, hr, hb, hbud] using hs
          | some budget =>
            have hbid : 0 ≤ bid := by
              cases hc : row.current_bid with
              | missing =>
                rw [hc] at hb
                injection hb with hb'
                subst hb'
                exact hs (name, r) (lookup_mem s name r hr)
              | valid q =>
                rw [hc] at hb
                injection hb with hb'
                subst hb'
                have h := hrow
                rw [hc] at h
                exact h
              | invalid =>
                rw [hc] at hb
                cases hb
            have hred : applyRow now s row = modifyTract s name fun t =>
                { t with current_bid := bid, max_budget := budget,
                         last_updated := now, approved_over_budget := false,
                         requested_budget := none, requested_unit := none,
                         high_bidder := false } := by
              simp [applyRow, htr, he, hr, hb, hbud]
            rw [hred]
            apply modify_preserves (fun r => 0 ≤ r.current_bid)
            · exact hs
            · intro t _
              exact hbid

theorem applyOp_bids_nonneg (s : Store) (op : Op)
    (hs : ∀ p ∈ s, 0 ≤ p.2.current_bid) (hop : op.amountsNonneg) :
    ∀ p ∈ applyOp s op, 0 ≤ p.2.current_bid := by
  cases op with
  | updateBid t a n =>
    rw [applyOp, update_bid]
    apply modify_preserves (fun r => 0 ≤ r.current_bid)
    · exact hs
    · intro r _
      exact hop
  | approveOverBudget t nb =>
    rw [applyOp, approve_over_budget]
    apply modify_preserves (fun r => 0 ≤ r.current_bid)
    · exact hs
    · intro r hr
      exact hr
  | requestBudgetIncrease t a u =>
    rw [applyOp, request_budget_increase]
    apply modify_preserves (fun r => 0 ≤ r.current_bid)
    · exact hs
    · intro r hr
      exact hr
  | setHighBidder t b =>
    rw [applyOp, set_high_bidder]
    apply modify_preserves (fun r => 0 ≤ r.current_bid)
    · exact hs
    · intro r hr
      exact hr
  | reset =>
    rw [applyOp, reset_state]
    apply foldl_dictSet_preserves (fun r => 0 ≤ r.current_bid)
    · decide
    · exact hs
  | applyBulkUpdate rows n =>
    rw [applyOp]
    have hrows : ∀ row ∈ rows, Cell.nonneg row.current_bid := hop
    clear hop
    induction rows generalizing s with
    | nil => exact hs
    | cons row rest ih =>
      exact ih _ (applyRow_bids_nonneg n s row hs
          (hrows row (List.mem_cons_self _ _)))
        fun r hr => hrows r (List.mem_cons_of_mem _ hr)
  | addTract nm cb mb n =>
    rw [applyOp]
    by_cases he : pyStrip nm = ""
    · simpa [add_tract, he] using hs
    · by_cases hl : (lookupTract s (pyStrip nm)).isSome
      · simpa [add_tract, he, hl] using hs
      · have hred : (add_tract nm cb mb n s).2 =
            s ++ [(pyStrip nm, ⟨cb, mb, false, none, none, false, n⟩)] := by
          simp [add_tract, he, hl]
        rw [hred]
        apply append_preserves (fun r => 0 ≤ r.current_bid)
        · exact hs
        · exact hop

/-- C9 counterexample: the store operations do not validate sign, so a
negative bid amount is stored verbatim — one `update_bid` with amount `-5`
reaches a state whose "Tract 1" record has `current_bid = -5 < 0`. -/
theorem negative_bid_reachable :
    (lookupTract (run [Op.updateBid "Tract 1" (-5) 1]) "Tract 1").map
        Record.current_bid = some (-5) ∧
    ¬(0 ≤ (-5 : ℚ)) := by
  constructor <;> decide

/-- C9 (amended): in every store state reachable from the seed by operation
sequences whose bid amounts (`update_bid` amount, `add_tract` bid, and each
bulk row's parsed bid) are non-negative, every record's `current_bid` is
non-negative. -/
theorem run_bids_nonneg (ops : List Op) (h : ∀ op ∈ ops, op.amountsNonneg) :
    ∀ p ∈ run ops, 0 ≤ p.2.current_bid := by
  have key : ∀ (l : List Op) (s : Store), (∀ p ∈ s, 0 ≤ p.2.current_bid) →
      (∀ op ∈ l, op.amountsNonneg) →
      ∀ p ∈ l.foldl applyOp s, 0 ≤ p.2.current_bid := by
    intro l
    induction l with
    | nil => exact fun s hs _ => hs
    | cons op rest ih =>
      intro s hs hops
      exact ih _ (applyOp_bids_nonneg s op hs (hops op (List.mem_cons_self _ _)))
        fun o ho => hops o (List.mem_cons_of_mem _ ho)
  exact key ops INITIAL_STATE (by decide) h

/-- C9 witness: a non-negative trace instantiated at its "Tract 1" entry. -/
theorem run_bids_nonneg_witness :
    0 ≤ (("Tract 1",
      ({ current_bid := 5, max_budget := 150000, approved_over_budget := false,
         requested_budget := none, requested_unit := none, high_bidder := false,
         last_updated := 1 } : Record)) : String × Record).2.current_bid :=
  run_bids_nonneg [Op.updateBid "Tract 1" 5 1] (by decide)
    ("Tract 1",
      { current_bid := 5, max_budget := 150000, approved_over_budget := false,
        requested_budget := none, requested_unit := none, high_bidder := false,
        last_updated := 1 }) (by decide)

theorem applyRow_units_ok (now : Nat) (s : Store) (row : Row)
    (hs : ∀ p ∈ s, unitOk p.2.requested_unit) :
    ∀ p ∈ applyRow now s row, unitOk p.2.requested_unit := by
  cases htr : row.tract with
  | none => simpa [applyRow, htr] using hs
  | some name =>
    by_cases he : name = ""
    · simpa [applyRow, htr, he] using hs
    · cases hr : lookupTract s name with
      | none => simpa [applyRow, htr, he, hr] using hs
      | some r =>
        cases hb : cellValue row.current_bid r.current_bid with
        | none => simpa [applyRow, htr, he, hr, hb] using hs
        | some bid =>
          cases hbud : cellValue row.max_budget r.max_budget with
          | none => simpa [applyRow, htr, he, hr, hb, hbud] using hs
          | some budget =>
            have hred : applyRow now s row = modifyTract s name fun t =>
                { t with current_bid := bid, max_budget := budget,
                         last_updated := now, approved_over_budget := false,
                         requested_budget := none, requested_unit := none,
                         high_bidder := false } := by
              simp [applyRow, htr, he, hr, hb, hbud]
            rw [hred]
            apply modify_preserves (fun r => unitOk r.requested_unit)
            · exact hs
            · intro t _
              exact Or.inl rfl

theorem applyOp_units_ok (s : Store) (op : Op)
    (hs : ∀ p ∈ s, unitOk p.2.requested_unit) (hop : op.unitsValid) :
    ∀ p ∈ applyOp s op, unitOk p.2.requested_unit := by
  cases op with
  | updateBid t a n =>
    rw [applyOp, update_bid]
    apply modify_preserves (fun r => unitOk r.requested_unit)
    · exact hs
    · intro r _
      exact Or.inl rfl
  | approveOverBudget t nb =>
    rw [applyOp, approve_over_budget]
    apply modify_preserves (fun r => unitOk r.requested_unit)
    · exact hs
    · intro r _
      exact Or.inl rfl
  | requestBudgetIncrease t a u =>
    rw [applyOp, request_budget_increase]
    apply modify_preserves (fun r => unitOk r.requested_unit)
    · exact hs
    · intro r _
      exact hop
  | setHighBidder t b =>
    rw [applyOp, set_high_bidder]
    apply modify_preserves (fun r => unitOk r.requested_unit)
    · exact hs
    · intro r hr
      exact hr
  | reset =>
    rw [applyOp, reset_state]
    apply foldl_dictSet_preserves (fun r => unitOk r.requested_unit)
    · decide
    · exact hs
  | applyBulkUpdate rows n =>
    rw [applyOp]
    clear hop
    induction rows generalizing s with
    | nil => exact hs
    | cons row rest ih => exact ih _ (applyRow_units_ok n s row hs)
  | addTract nm cb mb n =>
    rw [applyOp]
    by_cases he : pyStrip nm = ""
    · simpa [add_tract, he] using hs
    · by_cases hl : (lookupTract s (pyStrip nm)).isSome
      · simpa [add_tract, he, hl] using hs
      · have hred : (add_tract nm cb mb n s).2 =
            s ++ [(pyStrip nm, ⟨cb, mb, false, none, none, false, n⟩)] := by
          simp [add_tract, he, hl]
        rw [hred]
        apply append_preserves (fun r => unitOk r.requested_unit)
        · exact hs
        · exact Or.inl rfl

/-- C10 counterexample: `request_budget_increase` stores the caller's unit tag
without validation, so a single request with unit "XYZ" reaches a state whose
snapshot shows `requested_unit = "XYZ"`, outside `{"1", "K", "MM", null}`. -/
theorem foreign_unit_reachable :
    (snapshot_state (run [Op.requestBudgetIncrease "Tract 1" 5 (some "XYZ")])).map
        (fun p => p.2.requested_unit) = [some "XYZ", none, none] ∧
    ¬unitOk (some "XYZ") := by
  constructor <;> decide

/-- C10 (amended): in every store state reachable from the seed by operation
sequences whose `request_budget_increase` calls only pass unit tags in
`{"1", "K", "MM"}` or none, every snapshot record's `requested_unit` is one
of `"1"`, `"K"`, `"MM"` or null. -/
theorem run_units_ok (ops : List Op) (h : ∀ op ∈ ops, op.unitsValid) :
    ∀ p ∈ snapshot_state (run ops), unitOk p.2.requested_unit := by
  have key : ∀ (l : List Op) (s : Store), (∀ p ∈ s, unitOk p.2.requested_unit) →
      (∀ op ∈ l, op.unitsValid) →
      ∀ p ∈ l.foldl applyOp s, unitOk p.2.requested_unit := by
    intro l
    induction l with
    | nil => exact fun s hs _ => hs
    | cons op rest ih =>
      intro s hs hops
      exact ih _ (applyOp_units_ok s op hs (hops op (List.mem_cons_self _ _)))
        fun o ho => hops o (List.mem_cons_of_mem _ ho)
  intro p hp
  obtain ⟨q, hq, rfl⟩ := List.mem_map.mp hp
  exact key ops INITIAL_STATE (by decide) h q hq

/-- C10 witness: a trace using only the unit "K", instantiated at its
"Tract 1" snapshot entry. -/
theorem run_units_ok_witness :
    unitOk (("Tract 1",
      ({ current_bid := 120000, max_budget := 150000,
         approved_over_budget := false, requested_budget := some 5,
         requested_unit := some "K", high_bidder := false,
         last_updated := "0" } : SnapRecord)) : String × SnapRecord).2.requested_unit :=
  run_units_ok [Op.requestBudgetIncrease "Tract 1" 5 (some "K")] (by decide)
    ("Tract 1",
      { current_bid := 120000, max_budget := 150000,
        approved_over_budget := false, requested_budget := some 5,
        requested_unit := some "K", high_bidder := false,
        last_updated := "0" }) (by decide)

end Bidder
